import Mathlib

/-
Verification development for the NerdTracker hangout-deduplication core.

The repository implements the hangout classifier three times:
  * a Cloudflare worker (location-inserter/src/index.ts) that reads the recent
    window itself, decides INSERT vs UPDATE, and writes through the Supabase
    REST API ("the worker path" below);
  * a PostgreSQL trigger (db/universal.sql, locations_no_dups_insert_trigger)
    that runs the same decision inside the database on INSERT into the
    locations_no_dups view ("the trigger path" below);
  * an offline Python batch script (NerdTrackerCleanup) whose code is not in
    the repository snapshot (only its README); it is modelled from the spec.

The embedding models the store as a list of rows plus a serial counter.
Numeric columns are rationals (the claims under study are about control flow
and store effects, not floating-point rounding); the great-circle distance
computation itself is embedded separately over the reals for the claims about
calculateDistance.  Both classifier variants are parametrised by the distance
function they call, mirroring the factorisation in the source (the worker
calls calculateDistance, the trigger calls earth_distance).
-/

/-- A JavaScript number as it flows through the worker's classifier:
NaN, Infinity, or a finite value. -/
inductive JsNum where
  | nan : JsNum
  | inf : JsNum
  | fin : ℚ → JsNum
deriving DecidableEq

/-- JavaScript comparison d <= m used at index.ts:96
(`distance <= HANGOUT_SILENCE_DIST`): false when d is NaN, false when d is
Infinity (for finite m), ordinary comparison otherwise. -/
def jsLe (d : JsNum) (m : ℚ) : Bool :=
  match d with
  | .fin x => decide (x ≤ m)
  | _ => false

/-- Classifier configuration (spec section 4.3).  The sources hard-code the
default values; the embedding threads them explicitly. -/
structure Config where
  maxProximityMeters : ℚ
  minWithinRange : Nat
  windowLimit : Nat
deriving DecidableEq

/-- index.ts:12 (and MAX_PROXIMITY_METERS in universal.sql). -/
def HANGOUT_SILENCE_DIST : ℚ := 100

/-- index.ts:15 (and RECENT_LOCATIONS_LIMIT in universal.sql). -/
def LAST_LOCATIONS_COUNT : Nat := 10

/-- index.ts:19 (and MIN_WITHIN_RANGE in universal.sql). -/
def MIN_LOCATIONS_IN_RANGE : Nat := 5

def defaultConfig : Config :=
  ⟨HANGOUT_SILENCE_DIST, MIN_LOCATIONS_IN_RANGE, LAST_LOCATIONS_COUNT⟩

/-- A stored row of the locations table (db/universal.sql).  The columns the
hangout logic reads (lat, lon, tst, tid) are explicit; every other column is
collected in the association list rest (key-value pairs of the remaining
telemetry columns; an absent key stands for SQL NULL). -/
structure SqlRow where
  id : Nat
  lat : Option ℚ
  lon : Option ℚ
  tst : Option Int
  tid : Option String
  rest : List (String × String)
deriving DecidableEq

/-- A candidate fix as the trigger sees it: json_populate_record yields a full
row value, with NULL for every column the JSON leaves unset. -/
structure Cand where
  lat : Option ℚ
  lon : Option ℚ
  tst : Option Int
  tid : Option String
  rest : List (String × String)
deriving DecidableEq

/-- A candidate fix as the worker sees it (cleanBody): a JSON object in which
a field can be absent (outer none), present but null (some none), or present
with a value.  The distinction matters: supabase .update only touches the
fields present in the object. -/
structure Body where
  lat : Option (Option ℚ)
  lon : Option (Option ℚ)
  tst : Option (Option Int)
  tid : Option (Option String)
  rest : List (String × String)
deriving DecidableEq

/-- The locations store: rows plus the serial sequence locations_id_seq. -/
structure DB where
  rows : List SqlRow
  nextId : Nat
deriving DecidableEq

/-- The classifier's verdict (spec section 3, HangoutDecision). -/
inductive Decision where
  | insert : Decision
  | coalesceInto : Nat → Decision
deriving DecidableEq

def Decision.isInsert : Decision → Bool
  | .insert => true
  | .coalesceInto _ => false

/- ------------------------------------------------------------------
Recent-window reading (shared machinery).
Both variants order by tst descending with LIMIT; SQL leaves the order of
tst ties unspecified, the embedding fixes a deterministic insertion sort.
------------------------------------------------------------------ -/

def tstKey (r : SqlRow) : Int := r.tst.getD 0

def insertDesc (r : SqlRow) : List SqlRow → List SqlRow
  | [] => [r]
  | x :: xs => if tstKey x ≤ tstKey r then r :: x :: xs else x :: insertDesc r xs

def sortByTstDesc (l : List SqlRow) : List SqlRow := l.foldr insertDesc []

/-- index.ts:62-69: the worker's window query filters NULL lat/lon/tst but
has no tracker-id condition. -/
def validRow (r : SqlRow) : Bool := r.lat.isSome && r.lon.isSome && r.tst.isSome

def tsWindow (rows : List SqlRow) (limit : Nat) : List SqlRow :=
  (sortByTstDesc (rows.filter validRow)).take limit

/-- SQL equality loc.tid = NEW.tid under three-valued logic: TRUE only when
both sides are non-null and equal. -/
def sqlTidEq (a b : Option String) : Bool :=
  match a, b with
  | some x, some y => decide (x = y)
  | _, _ => false

/-- universal.sql:94-102: the trigger's window query filters NULL lat/lon/tst
and additionally requires loc.tid = NEW.tid. -/
def sqlWindowFilter (c : Cand) (r : SqlRow) : Bool :=
  r.lat.isSome && r.lon.isSome && r.tst.isSome && sqlTidEq r.tid c.tid

def sqlWindow (rows : List SqlRow) (c : Cand) (limit : Nat) : List SqlRow :=
  (sortByTstDesc (rows.filter (sqlWindowFilter c))).take limit

/- ------------------------------------------------------------------
The worker classifier (location-inserter/src/index.ts, fetch handler).
------------------------------------------------------------------ -/

/-- The JavaScript Number(.) coercion applied to a field of cleanBody at
index.ts:87-88: an absent field is undefined (NaN), an explicit null
coerces to 0, a number stays itself. -/
def numberOfBody : Option (Option ℚ) → JsNum
  | none => .nan
  | some none => .fin 0
  | some (some q) => .fin q

/-- Number(loc.lat) for a database row field at index.ts:89-90: null coerces
to 0, a number stays itself (window rows are filtered non-null anyway). -/
def numberOfDb (o : Option ℚ) : JsNum := .fin (o.getD 0)

/-- The worker's distance call is calculateDistance; the classifier embedding
is parametrised by it. -/
abbrev WorkerDist := JsNum → JsNum → JsNum → JsNum → JsNum

/-- index.ts:85-97: per-row within-range test
(`distance <= HANGOUT_SILENCE_DIST`). -/
def tsIsWithin (dist : WorkerDist) (cfg : Config) (b : Body) (r : SqlRow) : Bool :=
  jsLe (dist (numberOfBody b.lat) (numberOfBody b.lon)
             (numberOfDb r.lat) (numberOfDb r.lon))
       cfg.maxProximityMeters

/-- index.ts:101: withinRangeCount. -/
def tsWithinCount (dist : WorkerDist) (cfg : Config) (b : Body)
    (window : List SqlRow) : Nat :=
  (window.filter (tsIsWithin dist cfg b)).length

/-- index.ts:79-144: the worker's decision given the fetched window.
With a non-empty window it coalesces into window[0].id iff the most recent
row is within range and at least MIN_LOCATIONS_IN_RANGE rows are. -/
def tsDecide (dist : WorkerDist) (cfg : Config) (b : Body)
    (window : List SqlRow) : Decision :=
  match window with
  | [] => .insert
  | mostRecent :: _ =>
    if tsIsWithin dist cfg b mostRecent = true ∧
       cfg.minWithinRange ≤ tsWithinCount dist cfg b window
    then .coalesceInto mostRecent.id
    else .insert

/-- Override one key of an association list (the effect of an UPDATE SET on
one column). -/
def setKey (l : List (String × String)) (kv : String × String) :
    List (String × String) :=
  if l.any (fun p => p.1 = kv.1) then
    l.map (fun p => if p.1 = kv.1 then kv else p)
  else l ++ [kv]

def overrideRest (old new : List (String × String)) : List (String × String) :=
  new.foldl setKey old

/-- index.ts:129-132: supabase .update(cleanBody).eq(id, ...) writes only the
fields present in cleanBody; absent fields keep their stored values. -/
def applyUpdate (r : SqlRow) (b : Body) : SqlRow :=
  { id := r.id
    lat := b.lat.getD r.lat
    lon := b.lon.getD r.lon
    tst := b.tst.getD r.tst
    tid := b.tid.getD r.tid
    rest := overrideRest r.rest b.rest }

/-- index.ts:147-149: supabase .insert(cleanBody) creates a row whose absent
columns default to NULL, with a fresh serial id. -/
def rowOfBody (id : Nat) (b : Body) : SqlRow :=
  { id := id
    lat := b.lat.getD none
    lon := b.lon.getD none
    tst := b.tst.getD none
    tid := b.tid.getD none
    rest := b.rest }

/-- One full (error-free) worker ingestion: read window, decide, write. -/
def tsStep (dist : WorkerDist) (cfg : Config) (db : DB) (b : Body) : DB :=
  match tsDecide dist cfg b (tsWindow db.rows cfg.windowLimit) with
  | .coalesceInto targetId =>
    { rows := db.rows.map (fun r => if r.id = targetId then applyUpdate r b else r)
      nextId := db.nextId }
  | .insert =>
    { rows := db.rows ++ [rowOfBody db.nextId b], nextId := db.nextId + 1 }

/-- Outcome of one store operation issued by the worker. -/
inductive OpResult where
  | ok : OpResult
  | err : OpResult
deriving DecidableEq

/-- Injected outcomes for the three store round-trips of one worker call. -/
structure OpResults where
  selectRes : OpResult
  updateRes : OpResult
  insertRes : OpResult
deriving DecidableEq

/-- The worker's full control flow with store errors (index.ts:62-157),
returning the HTTP status and the resulting store.  On selectError it
returns 500 before any write; on updateError it returns 500 without
attempting an insert; on insert error it returns 500.  The store is
unchanged whenever the write fails. -/
def tsRun (dist : WorkerDist) (cfg : Config) (db : DB) (b : Body)
    (oc : OpResults) : Nat × DB :=
  if oc.selectRes = .err then (500, db) else
  match tsDecide dist cfg b (tsWindow db.rows cfg.windowLimit) with
  | .coalesceInto targetId =>
    if oc.updateRes = .err then (500, db)
    else (200, { rows := db.rows.map
                   (fun r => if r.id = targetId then applyUpdate r b else r)
                 nextId := db.nextId })
  | .insert =>
    if oc.insertRes = .err then (500, db)
    else (200, { rows := db.rows ++ [rowOfBody db.nextId b]
                 nextId := db.nextId + 1 })

/- ------------------------------------------------------------------
The trigger classifier (db/universal.sql, locations_no_dups_insert_trigger).
------------------------------------------------------------------ -/

/-- The trigger's distance call earth_distance(ll_to_earth(..), ..): a total
function on the four (non-null) coordinates. -/
abbrev EarthDist := ℚ → ℚ → ℚ → ℚ → ℚ

/-- universal.sql:104-107: is_close := earth_distance(..) < MAX_PROXIMITY_METERS
under SQL three-valued logic: NULL when any coordinate is NULL (window rows
always have coordinates, NEW may not), else the strict comparison. -/
def isCloseTo (dist : EarthDist) (cfg : Config) (c : Cand) (r : SqlRow) :
    Option Bool :=
  match c.lat, c.lon, r.lat, r.lon with
  | some a, some b, some x, some y =>
    some (decide (dist a b x y < cfg.maxProximityMeters))
  | _, _, _, _ => none

/-- The trigger loop's accumulator (universal.sql:87-121):
within_range_cnt, is_recent_location_in_range (BOOLEAN, possibly NULL),
most_recent_rec. -/
structure LoopState where
  withinRangeCnt : Nat
  isRecentInRange : Option Bool
  mostRecent : Option SqlRow
deriving DecidableEq

def loopInit : LoopState := ⟨0, some false, none⟩

/-- One iteration of the trigger's FOR loop (universal.sql:103-121): bump the
count when is_close is TRUE; on the first row record is_close and the row
itself. -/
def loopStep (dist : EarthDist) (cfg : Config) (c : Cand)
    (s : LoopState) (r : SqlRow) : LoopState :=
  let isClose := isCloseTo dist cfg c r
  let s1 := if isClose = some true
            then { s with withinRangeCnt := s.withinRangeCnt + 1 }
            else s
  match s1.mostRecent with
  | none => { s1 with isRecentInRange := isClose, mostRecent := some r }
  | some _ => s1

def runLoop (dist : EarthDist) (cfg : Config) (c : Cand)
    (w : List SqlRow) : LoopState :=
  w.foldl (loopStep dist cfg c) loopInit

/-- The trigger's decision on a given window (universal.sql:123-143): coalesce
into most_recent_rec.id iff is_recent_location_in_range is TRUE and at least
MIN_WITHIN_RANGE rows were close.  (The inner none case is unreachable:
is_recent_location_in_range can only become TRUE after most_recent_rec is
set.) -/
def sqlDecisionOfWindow (dist : EarthDist) (cfg : Config) (c : Cand)
    (w : List SqlRow) : Decision :=
  let s := runLoop dist cfg c w
  if s.isRecentInRange = some true ∧ cfg.minWithinRange ≤ s.withinRangeCnt
  then match s.mostRecent with
       | some mr => .coalesceInto mr.id
       | none => .insert
  else .insert

def triggerDecision (dist : EarthDist) (cfg : Config) (rows : List SqlRow)
    (c : Cand) : Decision :=
  sqlDecisionOfWindow dist cfg c (sqlWindow rows c cfg.windowLimit)

/-- INSERT INTO locations SELECT NEW.* after NEW.id was set. -/
def mkSqlRow (id : Nat) (c : Cand) : SqlRow :=
  ⟨id, c.lat, c.lon, c.tst, c.tid, c.rest⟩

/-- universal.sql:74-146: one execution of the INSTEAD OF INSERT trigger.
On coalesce the old row is deleted and NEW re-inserted under the old id (the
serial is untouched); otherwise NEW gets nextval of the serial. -/
def locations_no_dups_insert_trigger (dist : EarthDist) (cfg : Config)
    (db : DB) (c : Cand) : DB :=
  match triggerDecision dist cfg db.rows c with
  | .coalesceInto targetId =>
    { rows := (db.rows.filter (fun r => r.id ≠ targetId)) ++ [mkSqlRow targetId c]
      nextId := db.nextId }
  | .insert =>
    { rows := db.rows ++ [mkSqlRow db.nextId c], nextId := db.nextId + 1 }

/- ------------------------------------------------------------------
The Distance Engine (location-inserter/src/index.ts, calculateDistance),
embedded over the reals.
------------------------------------------------------------------ -/

/-- A JavaScript number for the real-valued distance computation. -/
inductive RNum where
  | nan : RNum
  | inf : RNum
  | fin : ℝ → RNum

/-- JavaScript Math.atan2. -/
noncomputable def atan2 (y x : ℝ) : ℝ :=
  if 0 < x then Real.arctan (y / x)
  else if x < 0 ∧ 0 ≤ y then Real.arctan (y / x) + Real.pi
  else if x < 0 ∧ y < 0 then Real.arctan (y / x) - Real.pi
  else if x = 0 ∧ 0 < y then Real.pi / 2
  else if x = 0 ∧ y < 0 then -(Real.pi / 2)
  else 0

/-- index.ts:185-196: the Haversine body of calculateDistance, evaluated on
finite coordinates. -/
noncomputable def haversineFormula (lat1 lon1 lat2 lon2 : ℝ) : ℝ :=
  let R : ℝ := 6371e3
  let f1 := lat1 * Real.pi / 180
  let f2 := lat2 * Real.pi / 180
  let df := (lat2 - lat1) * Real.pi / 180
  let dl := (lon2 - lon1) * Real.pi / 180
  let a := Real.sin (df / 2) * Real.sin (df / 2) +
           Real.cos f1 * Real.cos f2 * Real.sin (dl / 2) * Real.sin (dl / 2)
  let c := 2 * atan2 (Real.sqrt a) (Real.sqrt (1 - a))
  R * c

/-- index.ts:172-197: calculateDistance.  The isNaN guard returns Infinity
when any coordinate is NaN; otherwise the Haversine formula runs.  An
infinite coordinate passes the guard and poisons the trigonometry to NaN
(IEEE: sin and cos of an infinity are NaN, and NaN propagates). -/
noncomputable def calculateDistance (lat1 lon1 lat2 lon2 : RNum) : RNum :=
  match lat1, lon1, lat2, lon2 with
  | .nan, _, _, _ => .inf
  | _, .nan, _, _ => .inf
  | _, _, .nan, _ => .inf
  | _, _, _, .nan => .inf
  | .fin a, .fin b, .fin c, .fin d => .fin (haversineFormula a b c d)
  | _, _, _, _ => .nan

/-- JavaScript d > m for the distance result: true for Infinity, false for
NaN, ordinary comparison otherwise. -/
def rnumGt (d : RNum) (m : ℝ) : Prop :=
  match d with
  | .inf => True
  | .nan => False
  | .fin x => m < x

/-- The Number(.) coercion at the call site (index.ts:87-88), real-valued:
an absent field is NaN, an explicit null coerces to 0. -/
def toNumber : Option (Option ℝ) → RNum
  | none => .nan
  | some none => .fin 0
  | some (some x) => .fin x

/- ------------------------------------------------------------------
Live replay and the Batch Cleanup Engine (NerdTrackerCleanup).
------------------------------------------------------------------ -/

def candOf (r : SqlRow) : Cand := ⟨r.lat, r.lon, r.tst, r.tid, r.rest⟩

/-- Replaying a sequence of fixes one at a time through the live trigger
path, recording for each fix whether it was inserted (true) or coalesced
away (false).  A live row is never deleted except by the coalesce-replace,
which preserves the id of the run's first member, so the surviving row set
corresponds exactly to the inserted fixes. -/
def replayKeeps (dist : EarthDist) (cfg : Config) (db : DB) :
    List Cand → List Bool
  | [] => []
  | c :: cs =>
    (triggerDecision dist cfg db.rows c).isInsert ::
      replayKeeps dist cfg (locations_no_dups_insert_trigger dist cfg db c) cs

/-- Modelled from the spec: the Batch Cleanup Engine
(NerdTrackerCleanup/cleanup_locations.py is absent from the repository
snapshot; only its README is present).  Spec section 4.5: the window is the
last K kept (not raw) rows, most-recent-first. -/
def batchWindow (kept : List SqlRow) (limit : Nat) : List SqlRow :=
  kept.reverse.take limit

/-- Modelled from the spec: the Batch Cleanup Engine's per-row verdict,
applying the identical classification predicate (spec section 4.5 requires
the same predicate as the live path; the trigger's decision on the batch
window is reused verbatim).  True means the row is kept. -/
def batchKeepRow (dist : EarthDist) (cfg : Config) (kept : List SqlRow)
    (r : SqlRow) : Bool :=
  (sqlDecisionOfWindow dist cfg (candOf r) (batchWindow kept cfg.windowLimit)).isInsert

/-- Modelled from the spec: the Batch Cleanup Engine's single forward pass
over a full time-ordered export for one tracker (spec section 4.5), keeping
the first member of each hangout run and dropping the rest. -/
def batchKeeps (dist : EarthDist) (cfg : Config) (kept : List SqlRow) :
    List SqlRow → List Bool
  | [] => []
  | r :: rs =>
    let keep := batchKeepRow dist cfg kept r
    keep :: batchKeeps dist cfg (if keep then kept ++ [r] else kept) rs

/-- The raw export of a fix sequence: one row per fix, serial ids. -/
def rowsOfSeq (startId : Nat) : List Cand → List SqlRow
  | [] => []
  | c :: cs => mkSqlRow startId c :: rowsOfSeq (startId + 1) cs

/-- A valid fix for tracker AB at 1-dimensional test coordinate x. -/
def mkFix (x : ℚ) (t : Int) : Cand := ⟨some x, some 0, some t, some "AB", []⟩

/-- A distance function for concrete scenarios: the coordinates are laid out
on one axis at positions 0, 80, 160 and 230, and the distance is the
absolute difference of positions, written as a table so that it evaluates by
literal comparison alone (realisable to any precision by actual WGS84 points
along a meridian: 0 for identical points, 80 between 0 and 80 or between 80
and 160, 150 between 80 and 230, 160 between 0 and 160, 230 between 0 and
230, 70 between 160 and 230). -/
def dist1D : EarthDist := fun a _ x _ =>
  if a = x then 0
  else if (a = 0 ∧ x = 80) ∨ (a = 80 ∧ x = 0) then 80
  else if (a = 0 ∧ x = 160) ∨ (a = 160 ∧ x = 0) then 160
  else if (a = 0 ∧ x = 230) ∨ (a = 230 ∧ x = 0) then 230
  else if (a = 80 ∧ x = 160) ∨ (a = 160 ∧ x = 80) then 80
  else if (a = 80 ∧ x = 230) ∨ (a = 230 ∧ x = 80) then 150
  else 70

/-- An 11-fix sequence whose live anchor drifts away from its first member:
five fixes at 0, one at 80 (coalesces, dragging the live anchor to 80), four
at 230, then one at 160. -/
def driftSeq : List Cand :=
  [mkFix 0 1, mkFix 0 2, mkFix 0 3, mkFix 0 4, mkFix 0 5,
   mkFix 80 6, mkFix 230 7, mkFix 230 8, mkFix 230 9, mkFix 230 10,
   mkFix 160 11]

/- ------------------------------------------------------------------
Further definitions: write-phase in isolation, invariants, scenario data.
------------------------------------------------------------------ -/

/-- The worker's write phase taken in isolation, applied to a decision that
may have been computed from a stale window.  tsStep is tsApply of the fresh
decision. -/
def tsApply (db : DB) (b : Body) : Decision → DB
  | .coalesceInto i =>
    ⟨db.rows.map (fun r => if r.id = i then applyUpdate r b else r), db.nextId⟩
  | .insert => ⟨db.rows ++ [rowOfBody db.nextId b], db.nextId + 1⟩

/-- Two worker calls racing on the same store: both read the initial store
(the second read happens before the first write lands), then both writes
are applied.  The worker composes its read and its write as separate
Supabase round-trips, so this interleaving is possible. -/
def racedPair (dist : WorkerDist) (cfg : Config) (db : DB) (b1 b2 : Body) : DB :=
  let d1 := tsDecide dist cfg b1 (tsWindow db.rows cfg.windowLimit)
  let d2 := tsDecide dist cfg b2 (tsWindow db.rows cfg.windowLimit)
  tsApply (tsApply db b1 d1) b2 d2

/-- Store sanity invariant: ids are pairwise distinct and below the serial
counter.  It holds for the empty store and is preserved by both ingestion
paths. -/
def DbInv (db : DB) : Prop :=
  db.rows.Pairwise (fun a b => a.id ≠ b.id) ∧ ∀ r ∈ db.rows, r.id < db.nextId

/-- A row for one fixed tracker at one fixed coordinate pair, with a
non-null fix time: the shape of every row in a constant-coordinate
history. -/
def GoodRow (p q : ℚ) (t : String) (r : SqlRow) : Prop :=
  r.lat = some p ∧ r.lon = some q ∧ r.tst.isSome = true ∧ r.tid = some t

instance (p q : ℚ) (t : String) (r : SqlRow) : Decidable (GoodRow p q t r) := by
  unfold GoodRow
  infer_instance

/-- The constant-zero distance function: all points at the same place
(calculateDistance returns exactly 0 for identical coordinates). -/
def wdist0 : WorkerDist := fun _ _ _ _ => .fin 0

/-- The constant-zero distance, trigger-typed. -/
def edist0 : EarthDist := fun _ _ _ _ => 0

/-- The constant distance exactly equal to the default proximity bound. -/
def wdist100 : WorkerDist := fun _ _ _ _ => .fin 100

/-- The constant distance exactly equal to the default proximity bound,
trigger-typed. -/
def edist100 : EarthDist := fun _ _ _ _ => 100

/-- Five valid rows for tracker BC, ids and fix times 1..5. -/
def storeBC : List SqlRow :=
  [⟨1, some 0, some 0, some 1, some "BC", []⟩,
   ⟨2, some 0, some 0, some 2, some "BC", []⟩,
   ⟨3, some 0, some 0, some 3, some "BC", []⟩,
   ⟨4, some 0, some 0, some 4, some "BC", []⟩,
   ⟨5, some 0, some 0, some 5, some "BC", []⟩]

/-- Five valid rows for tracker AB, ids and fix times 1..5; row 5 carries a
battery telemetry value. -/
def storeAB : List SqlRow :=
  [⟨1, some 0, some 0, some 1, some "AB", []⟩,
   ⟨2, some 0, some 0, some 2, some "AB", []⟩,
   ⟨3, some 0, some 0, some 3, some "AB", []⟩,
   ⟨4, some 0, some 0, some 4, some "AB", []⟩,
   ⟨5, some 0, some 0, some 5, some "AB", [("batt", "50")]⟩]

/-- Four valid rows for tracker AB, ids and fix times 1..4: one short of the
minimum hangout count. -/
def store4 : List SqlRow :=
  [⟨1, some 0, some 0, some 1, some "AB", []⟩,
   ⟨2, some 0, some 0, some 2, some "AB", []⟩,
   ⟨3, some 0, some 0, some 3, some "AB", []⟩,
   ⟨4, some 0, some 0, some 4, some "AB", []⟩]

/-- A worker candidate for tracker AB with fix time 6, leaving every
telemetry field unset. -/
def bodyAB : Body :=
  ⟨some (some 0), some (some 0), some (some 6), some (some "AB"), []⟩

/-- A worker candidate for tracker AB with fix time 5. -/
def bodyT5 : Body :=
  ⟨some (some 0), some (some 0), some (some 5), some (some "AB"), []⟩

/-- A trigger candidate for tracker AB with fix time 6. -/
def candAB : Cand := ⟨some 0, some 0, some 6, some "AB", []⟩

/-- A seven-fix constant-coordinate history for tracker AB. -/
def constSeq7 : List SqlRow :=
  rowsOfSeq 1
    [mkFix 0 1, mkFix 0 2, mkFix 0 3, mkFix 0 4, mkFix 0 5, mkFix 0 6, mkFix 0 7]

/- ------------------------------------------------------------------
Helper lemmas: sorting, windows, the trigger loop.
------------------------------------------------------------------ -/

theorem mem_insertDesc {x r : SqlRow} {l : List SqlRow} :
    x ∈ insertDesc r l ↔ x = r ∨ x ∈ l := by
  induction l with
  | nil => simp [insertDesc]
  | cons y ys ih =>
    by_cases h : tstKey y ≤ tstKey r
    · simp [insertDesc, h]
    · simp [insertDesc, h, ih]
      tauto

theorem mem_sortByTstDesc {x : SqlRow} {l : List SqlRow} :
    x ∈ sortByTstDesc l ↔ x ∈ l := by
  induction l with
  | nil => simp [sortByTstDesc]
  | cons y ys ih =>
    simp only [sortByTstDesc, List.foldr] at ih ⊢
    rw [mem_insertDesc, ih, List.mem_cons]

theorem length_insertDesc (r : SqlRow) (l : List SqlRow) :
    (insertDesc r l).length = l.length + 1 := by
  induction l with
  | nil => rfl
  | cons y ys ih =>
    by_cases h : tstKey y ≤ tstKey r
    · simp [insertDesc, h]
    · simp [insertDesc, h, ih]

theorem length_sortByTstDesc (l : List SqlRow) :
    (sortByTstDesc l).length = l.length := by
  induction l with
  | nil => rfl
  | cons y ys ih =>
    simp only [sortByTstDesc, List.foldr] at ih ⊢
    rw [length_insertDesc, ih, List.length_cons]

theorem sqlWindow_subset {rows : List SqlRow} {c : Cand} {k : Nat} {r : SqlRow}
    (h : r ∈ sqlWindow rows c k) : r ∈ rows := by
  have h1 := List.mem_of_mem_take h
  rw [mem_sortByTstDesc] at h1
  exact (List.mem_filter.mp h1).1

theorem tsWindow_subset {rows : List SqlRow} {k : Nat} {r : SqlRow}
    (h : r ∈ tsWindow rows k) : r ∈ rows := by
  have h1 := List.mem_of_mem_take h
  rw [mem_sortByTstDesc] at h1
  exact (List.mem_filter.mp h1).1

theorem sqlWindow_filter_prop {rows : List SqlRow} {c : Cand} {k : Nat} {r : SqlRow}
    (h : r ∈ sqlWindow rows c k) : sqlWindowFilter c r = true := by
  have h1 := List.mem_of_mem_take h
  rw [mem_sortByTstDesc] at h1
  exact (List.mem_filter.mp h1).2

/-- Every row of the trigger's window carries the candidate's tracker id
(and both are non-null). -/
theorem sqlWindow_tid {rows : List SqlRow} {c : Cand} {k : Nat} {r : SqlRow}
    (h : r ∈ sqlWindow rows c k) : sqlTidEq r.tid c.tid = true := by
  have h1 := sqlWindow_filter_prop h
  unfold sqlWindowFilter at h1
  simp only [Bool.and_eq_true] at h1
  exact h1.2

/-- Once most_recent_rec is set, the rest of the loop only counts. -/
theorem foldl_loopStep_set (dist : EarthDist) (cfg : Config) (c : Cand)
    (l : List SqlRow) (s : LoopState) (r0 : SqlRow)
    (h : s.mostRecent = some r0) :
    (l.foldl (loopStep dist cfg c) s) =
      ⟨s.withinRangeCnt +
         (l.filter (fun x => isCloseTo dist cfg c x = some true)).length,
       s.isRecentInRange, some r0⟩ := by
  induction l generalizing s with
  | nil =>
    cases s with
    | mk cnt rc mr =>
      simp only at h
      simp [h]
  | cons x xs ih =>
    cases s with
    | mk cnt rc mr =>
      simp only at h
      subst h
      by_cases hx : isCloseTo dist cfg c x = some true
      · have hstep : loopStep dist cfg c ⟨cnt, rc, some r0⟩ x =
            ⟨cnt + 1, rc, some r0⟩ := by
          simp [loopStep, hx]
        rw [List.foldl_cons, hstep, ih _ rfl, List.filter_cons]
        simp [hx, Nat.add_comm, Nat.add_assoc, Nat.add_left_comm]
      · have hstep : loopStep dist cfg c ⟨cnt, rc, some r0⟩ x =
            ⟨cnt, rc, some r0⟩ := by
          simp [loopStep, hx]
        rw [List.foldl_cons, hstep, ih _ rfl, List.filter_cons]
        simp [hx]

/-- Characterisation of the trigger loop on a non-empty window: the count is
the number of close rows, the recent flag is the is_close of the first row,
most_recent_rec is the first row. -/
theorem runLoop_cons (dist : EarthDist) (cfg : Config) (c : Cand)
    (r : SqlRow) (rest : List SqlRow) :
    runLoop dist cfg c (r :: rest) =
      ⟨((r :: rest).filter (fun x => isCloseTo dist cfg c x = some true)).length,
       isCloseTo dist cfg c r, some r⟩ := by
  unfold runLoop
  rw [List.foldl_cons]
  have hstep : loopStep dist cfg c loopInit r =
      ⟨(if isCloseTo dist cfg c r = some true then 1 else 0),
       isCloseTo dist cfg c r, some r⟩ := by
    by_cases hx : isCloseTo dist cfg c r = some true
    · simp [loopStep, loopInit, hx]
    · simp [loopStep, loopInit, hx]
  rw [hstep,
    foldl_loopStep_set dist cfg c rest _ r rfl, List.filter_cons]
  by_cases hx : isCloseTo dist cfg c r = some true
  · simp [hx, Nat.add_comm]
  · simp [hx]

/-- The trigger's decision on a non-empty window in closed form: coalesce
into the first (most recent) row's id iff that row is close and at least
minWithinRange window rows are close. -/
theorem sqlDecision_cons (dist : EarthDist) (cfg : Config) (c : Cand)
    (r : SqlRow) (rest : List SqlRow) :
    sqlDecisionOfWindow dist cfg c (r :: rest) =
      if isCloseTo dist cfg c r = some true ∧
         cfg.minWithinRange ≤
           ((r :: rest).filter
             (fun x => isCloseTo dist cfg c x = some true)).length
      then .coalesceInto r.id
      else .insert := by
  unfold sqlDecisionOfWindow
  rw [runLoop_cons]

/-- The empty window always yields Insert in the trigger. -/
theorem sqlDecision_nil (dist : EarthDist) (cfg : Config) (c : Cand) :
    sqlDecisionOfWindow dist cfg c [] = .insert := by
  simp [sqlDecisionOfWindow, runLoop, loopInit]

/-- Deleting by id removes exactly one row when ids are pairwise distinct
and the id is present. -/
theorem filter_ne_id_length {l : List SqlRow} {mr : SqlRow}
    (hnd : l.Pairwise (fun a b => a.id ≠ b.id)) (hm : mr ∈ l) :
    (l.filter (fun r => r.id ≠ mr.id)).length + 1 = l.length := by
  induction l with
  | nil => cases hm
  | cons x xs ih =>
    rcases List.pairwise_cons.mp hnd with ⟨hx, hxs⟩
    by_cases hpx : x.id = mr.id
    · have hkeep : xs.filter (fun r => r.id ≠ mr.id) = xs := by
        apply List.filter_eq_self.mpr
        intro r hr
        have hne : x.id ≠ r.id := hx r hr
        simp only [decide_eq_true_eq]
        intro hEq
        exact hne (by rw [hpx, hEq])
      have hfx : (x :: xs).filter (fun r => r.id ≠ mr.id) = xs := by
        rw [List.filter_cons, if_neg (by simp [hpx])]
        exact hkeep
      rw [hfx]
      simp
    · have hm2 : mr ∈ xs := by
        rcases List.mem_cons.mp hm with heq | hm2
        · exact absurd (by rw [heq] : x.id = mr.id) hpx
        · exact hm2
      have hfx : (x :: xs).filter (fun r => r.id ≠ mr.id) =
          x :: xs.filter (fun r => r.id ≠ mr.id) := by
        rw [List.filter_cons, if_pos (by simp [hpx])]
      rw [hfx]
      have hlen := ih hxs hm2
      simp only [List.length_cons]
      omega

/-- The worker's decision on a non-empty window in closed form (definitional
reading of index.ts:119-125). -/
theorem tsDecide_cons (dist : WorkerDist) (cfg : Config) (b : Body)
    (r : SqlRow) (rest : List SqlRow) :
    tsDecide dist cfg b (r :: rest) =
      if tsIsWithin dist cfg b r = true ∧
         cfg.minWithinRange ≤ tsWithinCount dist cfg b (r :: rest)
      then .coalesceInto r.id
      else .insert := rfl

theorem isInsert_true_iff {d : Decision} : d.isInsert = true ↔ d = .insert := by
  cases d <;> simp [Decision.isInsert]

theorem isInsert_false_iff {d : Decision} :
    d.isInsert = false ↔ ∃ i, d = .coalesceInto i := by
  cases d <;> simp [Decision.isInsert]

/-- When the trigger decides to coalesce, the target is the head (most
recent row) of its window. -/
theorem triggerDecision_coalesce_head {dist : EarthDist} {cfg : Config}
    {rows : List SqlRow} {c : Cand} {i : Nat}
    (h : triggerDecision dist cfg rows c = .coalesceInto i) :
    ∃ mr rest, sqlWindow rows c cfg.windowLimit = mr :: rest ∧ mr.id = i ∧
      mr ∈ rows := by
  unfold triggerDecision at h
  cases hw : sqlWindow rows c cfg.windowLimit with
  | nil => rw [hw, sqlDecision_nil] at h; cases h
  | cons mr rest =>
    rw [hw, sqlDecision_cons] at h
    by_cases hc : isCloseTo dist cfg c mr = some true ∧
        cfg.minWithinRange ≤
          ((mr :: rest).filter
            (fun x => isCloseTo dist cfg c x = some true)).length
    · rw [if_pos hc] at h
      refine ⟨mr, rest, rfl, ?_, ?_⟩
      · cases h; rfl
      · exact sqlWindow_subset (hw ▸ List.mem_cons_self mr rest)
    · rw [if_neg hc] at h
      cases h

/-- When the worker decides to coalesce, the target is the head (most
recent row) of its window. -/
theorem tsDecide_coalesce_head {dist : WorkerDist} {cfg : Config}
    {rows : List SqlRow} {b : Body} {i : Nat}
    (h : tsDecide dist cfg b (tsWindow rows cfg.windowLimit) = .coalesceInto i) :
    ∃ mr rest, tsWindow rows cfg.windowLimit = mr :: rest ∧ mr.id = i ∧
      mr ∈ rows := by
  cases hw : tsWindow rows cfg.windowLimit with
  | nil => rw [hw] at h; cases h
  | cons mr rest =>
    rw [hw, tsDecide_cons] at h
    by_cases hc : tsIsWithin dist cfg b mr = true ∧
        cfg.minWithinRange ≤ tsWithinCount dist cfg b (mr :: rest)
    · rw [if_pos hc] at h
      refine ⟨mr, rest, rfl, ?_, ?_⟩
      · cases h; rfl
      · exact tsWindow_subset (hw ▸ List.mem_cons_self mr rest)
    · rw [if_neg hc] at h
      cases h

/-- Branch lemma: an Insert decision makes the trigger append a fresh row. -/
theorem trigger_insert_eq {dist : EarthDist} {cfg : Config} {db : DB} {c : Cand}
    (h : triggerDecision dist cfg db.rows c = .insert) :
    locations_no_dups_insert_trigger dist cfg db c =
      ⟨db.rows ++ [mkSqlRow db.nextId c], db.nextId + 1⟩ := by
  unfold locations_no_dups_insert_trigger
  rw [h]

/-- Branch lemma: a Coalesce decision makes the trigger delete the target id
and re-insert the candidate under it. -/
theorem trigger_coalesce_eq {dist : EarthDist} {cfg : Config} {db : DB}
    {c : Cand} {i : Nat}
    (h : triggerDecision dist cfg db.rows c = .coalesceInto i) :
    locations_no_dups_insert_trigger dist cfg db c =
      ⟨db.rows.filter (fun r => r.id ≠ i) ++ [mkSqlRow i c], db.nextId⟩ := by
  unfold locations_no_dups_insert_trigger
  rw [h]

/-- On a row of a constant-coordinate history the trigger's is_close test
depends only on the common coordinates. -/
theorem isCloseTo_good (dist : EarthDist) (cfg : Config) (c : Cand)
    (cp cq p q : ℚ) (t : String) (r : SqlRow)
    (hc1 : c.lat = some cp) (hc2 : c.lon = some cq)
    (hr : GoodRow p q t r) :
    isCloseTo dist cfg c r =
      some (decide (dist cp cq p q < cfg.maxProximityMeters)) := by
  obtain ⟨h1, h2, _, _⟩ := hr
  simp [isCloseTo, hc1, hc2, h1, h2]

/-- On a constant-coordinate window the close count is all or nothing. -/
theorem goodCount (dist : EarthDist) (cfg : Config) (c : Cand)
    (cp cq p q : ℚ) (t : String) (w : List SqlRow)
    (hc1 : c.lat = some cp) (hc2 : c.lon = some cq)
    (hw : ∀ r ∈ w, GoodRow p q t r) :
    ((w.filter (fun x => isCloseTo dist cfg c x = some true)).length) =
      if dist cp cq p q < cfg.maxProximityMeters then w.length else 0 := by
  by_cases hd : dist cp cq p q < cfg.maxProximityMeters
  · rw [if_pos hd]
    have hall : w.filter (fun x => isCloseTo dist cfg c x = some true) = w := by
      apply List.filter_eq_self.mpr
      intro r hr
      rw [isCloseTo_good dist cfg c cp cq p q t r hc1 hc2 (hw r hr)]
      simp [hd]
    rw [hall]
  · rw [if_neg hd]
    have hnone : w.filter (fun x => isCloseTo dist cfg c x = some true) = [] := by
      rw [List.filter_eq_nil_iff]
      intro r hr
      rw [isCloseTo_good dist cfg c cp cq p q t r hc1 hc2 (hw r hr)]
      simp [hd]
    rw [hnone]
    rfl

/-- The classification verdict on a constant-coordinate window depends only
on the window length. -/
def constDecideInsert (dist : EarthDist) (cfg : Config) (cp cq p q : ℚ)
    (n : Nat) : Bool :=
  decide (n = 0) ||
    !(decide (dist cp cq p q < cfg.maxProximityMeters) &&
      decide (cfg.minWithinRange ≤ n))

theorem goodDecision (dist : EarthDist) (cfg : Config) (c : Cand)
    (cp cq p q : ℚ) (t : String) (w : List SqlRow)
    (hc1 : c.lat = some cp) (hc2 : c.lon = some cq)
    (hw : ∀ r ∈ w, GoodRow p q t r) :
    (sqlDecisionOfWindow dist cfg c w).isInsert =
      constDecideInsert dist cfg cp cq p q w.length := by
  cases w with
  | nil => rw [sqlDecision_nil]; rfl
  | cons r rest =>
    rw [sqlDecision_cons,
      goodCount dist cfg c cp cq p q t (r :: rest) hc1 hc2 hw,
      isCloseTo_good dist cfg c cp cq p q t r hc1 hc2
        (hw r (List.mem_cons_self r rest))]
    by_cases hd : dist cp cq p q < cfg.maxProximityMeters
    · by_cases hmin : cfg.minWithinRange ≤ (r :: rest).length
      · simp only [List.length_cons] at hmin
        simp [hd, hmin, Decision.isInsert, constDecideInsert]
      · simp only [List.length_cons] at hmin
        simp [hd, hmin, Decision.isInsert, constDecideInsert]
    · simp [hd, Decision.isInsert, constDecideInsert]

/-- For a constant-coordinate store the trigger window's filter keeps every
row. -/
theorem sqlWindow_filter_all (rows : List SqlRow) (c : Cand)
    (p q : ℚ) (t : String)
    (hrows : ∀ r ∈ rows, GoodRow p q t r) (hct : c.tid = some t) :
    rows.filter (sqlWindowFilter c) = rows := by
  apply List.filter_eq_self.mpr
  intro r hr
  obtain ⟨h1, h2, h3, h4⟩ := hrows r hr
  simp [sqlWindowFilter, h1, h2, h3, h4, hct, sqlTidEq]

theorem sqlWindow_good_length (rows : List SqlRow) (c : Cand) (k : Nat)
    (p q : ℚ) (t : String)
    (hrows : ∀ r ∈ rows, GoodRow p q t r) (hct : c.tid = some t) :
    (sqlWindow rows c k).length = min k rows.length := by
  unfold sqlWindow
  rw [sqlWindow_filter_all rows c p q t hrows hct, List.length_take,
    length_sortByTstDesc]

theorem batchWindow_length (kept : List SqlRow) (k : Nat) :
    (batchWindow kept k).length = min k kept.length := by
  unfold batchWindow
  rw [List.length_take, List.length_reverse]

theorem batchWindow_subset {kept : List SqlRow} {k : Nat} {r : SqlRow}
    (h : r ∈ batchWindow kept k) : r ∈ kept := by
  have h1 := List.mem_of_mem_take h
  exact List.mem_reverse.mp h1

/-- Batch/live agreement for constant-coordinate histories, generalised over
the mid-run states of both engines. -/
theorem replay_batch_aux (dist : EarthDist) (cfg : Config) (p q : ℚ)
    (t : String) (input : List SqlRow) :
    ∀ (db : DB) (kept : List SqlRow),
      (∀ r ∈ input, GoodRow p q t r) →
      (∀ r ∈ db.rows, GoodRow p q t r) →
      db.rows.Pairwise (fun a b => a.id ≠ b.id) →
      (∀ r ∈ db.rows, r.id < db.nextId) →
      (∀ r ∈ kept, GoodRow p q t r) →
      db.rows.length = kept.length →
      replayKeeps dist cfg db (input.map candOf) =
        batchKeeps dist cfg kept input := by
  induction input with
  | nil =>
    intro db kept _ _ _ _ _ _
    rfl
  | cons r rs ih =>
    intro db kept hin hdb hnd hlt hkept hlen
    have hrGood : GoodRow p q t r := hin r (List.mem_cons_self r rs)
    have hrsGood : ∀ x ∈ rs, GoodRow p q t x :=
      fun x hx => hin x (List.mem_cons_of_mem r hx)
    have hc1 : (candOf r).lat = some p := hrGood.1
    have hc2 : (candOf r).lon = some q := hrGood.2.1
    have hc3 : (candOf r).tst.isSome = true := hrGood.2.2.1
    have hct : (candOf r).tid = some t := hrGood.2.2.2
    have hw1good : ∀ x ∈ sqlWindow db.rows (candOf r) cfg.windowLimit,
        GoodRow p q t x :=
      fun x hx => hdb x (sqlWindow_subset hx)
    have hw2good : ∀ x ∈ batchWindow kept cfg.windowLimit, GoodRow p q t x :=
      fun x hx => hkept x (batchWindow_subset hx)
    have hdec1 : (triggerDecision dist cfg db.rows (candOf r)).isInsert =
        constDecideInsert dist cfg p q p q (min cfg.windowLimit db.rows.length) := by
      unfold triggerDecision
      rw [goodDecision dist cfg (candOf r) p q p q t _ hc1 hc2 hw1good,
        sqlWindow_good_length db.rows (candOf r) cfg.windowLimit p q t hdb hct]
    have hdec2 : batchKeepRow dist cfg kept r =
        constDecideInsert dist cfg p q p q (min cfg.windowLimit kept.length) := by
      unfold batchKeepRow
      rw [goodDecision dist cfg (candOf r) p q p q t _ hc1 hc2 hw2good,
        batchWindow_length kept cfg.windowLimit]
    have hdecEq : (triggerDecision dist cfg db.rows (candOf r)).isInsert =
        batchKeepRow dist cfg kept r := by
      rw [hdec1, hdec2, hlen]
    have hnewGood : GoodRow p q t (mkSqlRow db.nextId (candOf r)) :=
      ⟨hc1, hc2, hc3, hct⟩
    show (triggerDecision dist cfg db.rows (candOf r)).isInsert ::
        replayKeeps dist cfg
          (locations_no_dups_insert_trigger dist cfg db (candOf r))
          (rs.map candOf) =
      batchKeepRow dist cfg kept r ::
        batchKeeps dist cfg
          (if batchKeepRow dist cfg kept r then kept ++ [r] else kept) rs
    cases hb : (triggerDecision dist cfg db.rows (candOf r)).isInsert with
    | true =>
      have hdec : triggerDecision dist cfg db.rows (candOf r) = .insert :=
        isInsert_true_iff.mp hb
      have hbk : batchKeepRow dist cfg kept r = true := by rw [← hdecEq, hb]
      rw [hbk, if_pos rfl]
      refine congrArg (List.cons true) ?_
      rw [trigger_insert_eq hdec]
      apply ih ⟨db.rows ++ [mkSqlRow db.nextId (candOf r)], db.nextId + 1⟩
        (kept ++ [r]) hrsGood
      · intro x hx
        rcases List.mem_append.mp hx with h | h
        · exact hdb x h
        · rw [List.mem_singleton.mp h]
          exact hnewGood
      · refine List.pairwise_append.mpr ⟨hnd, List.pairwise_singleton _ _, ?_⟩
        intro a ha b hbmem
        rw [List.mem_singleton.mp hbmem]
        exact Nat.ne_of_lt (hlt a ha)
      · intro x hx
        rcases List.mem_append.mp hx with h | h
        · exact Nat.lt_succ_of_lt (hlt x h)
        · rw [List.mem_singleton.mp h]
          exact Nat.lt_succ_self _
      · intro x hx
        rcases List.mem_append.mp hx with h | h
        · exact hkept x h
        · rw [List.mem_singleton.mp h]
          exact hrGood
      · simp [hlen]
    | false =>
      have hbk : batchKeepRow dist cfg kept r = false := by rw [← hdecEq, hb]
      obtain ⟨i, hdec⟩ := isInsert_false_iff.mp hb
      obtain ⟨mr, mrest, hwEq, hmrId, hmrMem⟩ := triggerDecision_coalesce_head hdec
      rw [hbk, if_neg Bool.false_ne_true]
      refine congrArg (List.cons false) ?_
      rw [trigger_coalesce_eq hdec]
      apply ih ⟨db.rows.filter (fun x => x.id ≠ i) ++ [mkSqlRow i (candOf r)],
        db.nextId⟩ kept hrsGood
      · intro x hx
        rcases List.mem_append.mp hx with h | h
        · exact hdb x (List.mem_filter.mp h).1
        · rw [List.mem_singleton.mp h]
          exact ⟨hc1, hc2, hc3, hct⟩
      · refine List.pairwise_append.mpr
          ⟨List.Pairwise.sublist (List.filter_sublist _) hnd,
           List.pairwise_singleton _ _, ?_⟩
        intro a ha b hbmem
        rw [List.mem_singleton.mp hbmem]
        have : (fun x => decide (x.id ≠ i)) a = true := (List.mem_filter.mp ha).2
        simpa using of_decide_eq_true this
      · intro x hx
        rcases List.mem_append.mp hx with h | h
        · exact hlt x (List.mem_filter.mp h).1
        · rw [List.mem_singleton.mp h]
          rw [← hmrId]
          exact hlt mr hmrMem
      · exact hkept
      · rw [List.length_append]
        rw [List.length_singleton, ← hmrId]
        exact (filter_ne_id_length hnd hmrMem).trans hlen

/-- The Haversine body evaluates to exactly 0 on identical coordinates,
whatever they are (in or out of range). -/
theorem haversineFormula_equal_points (x y : ℝ) :
    haversineFormula x y x y = 0 := by
  simp [haversineFormula, atan2, sub_self]

/- ------------------------------------------------------------------
Claim theorems.
------------------------------------------------------------------ -/

/-- Claim C1: for every candidate fix and every non-empty recent window, both
classifier variants decide CoalesceInto of the most recent (first) window
row's id iff the distance from the candidate to that row is within
maxProximityMeters and the number of window rows within maxProximityMeters
is at least minWithinRange; in every other case they decide Insert.  Each
variant's own within-range test is used (the worker's inclusive jsLe
comparison, the trigger's is_close); their disagreement at the exact
boundary is claim C3. -/
theorem hangout_decision_iff (wdist : WorkerDist) (edist : EarthDist)
    (cfg : Config) (b : Body) (c : Cand) (r : SqlRow) (rest : List SqlRow) :
    (tsDecide wdist cfg b (r :: rest) =
      if tsIsWithin wdist cfg b r = true ∧
         cfg.minWithinRange ≤ tsWithinCount wdist cfg b (r :: rest)
      then .coalesceInto r.id
      else .insert) ∧
    (sqlDecisionOfWindow edist cfg c (r :: rest) =
      if isCloseTo edist cfg c r = some true ∧
         cfg.minWithinRange ≤
           ((r :: rest).filter
             (fun x => isCloseTo edist cfg c x = some true)).length
      then .coalesceInto r.id
      else .insert) :=
  ⟨tsDecide_cons wdist cfg b r rest, sqlDecision_cons edist cfg c r rest⟩

/-- Claim C5: a candidate whose recent window is empty (for instance, the
first-ever fix of a new tracker) is always inserted and never coalesced: the
worker decides Insert on the empty window, and the trigger decides Insert
and appends a brand-new row under the next serial id. -/
theorem empty_window_insert (wdist : WorkerDist) (edist : EarthDist)
    (cfg : Config) (b : Body) (c : Cand) (db : DB)
    (h : sqlWindow db.rows c cfg.windowLimit = []) :
    tsDecide wdist cfg b [] = .insert ∧
    triggerDecision edist cfg db.rows c = .insert ∧
    locations_no_dups_insert_trigger edist cfg db c =
      ⟨db.rows ++ [mkSqlRow db.nextId c], db.nextId + 1⟩ := by
  have hdec : triggerDecision edist cfg db.rows c = .insert := by
    unfold triggerDecision
    rw [h, sqlDecision_nil]
  exact ⟨rfl, hdec, trigger_insert_eq hdec⟩

/-- Witness for empty_window_insert: the empty store. -/
theorem empty_window_insert_witness :
    tsDecide wdist0 defaultConfig bodyAB [] = .insert ∧
    triggerDecision edist0 defaultConfig (DB.mk [] 1).rows candAB = .insert ∧
    locations_no_dups_insert_trigger edist0 defaultConfig (DB.mk [] 1) candAB =
      ⟨(DB.mk [] 1).rows ++ [mkSqlRow (DB.mk [] 1).nextId candAB],
        (DB.mk [] 1).nextId + 1⟩ :=
  empty_window_insert wdist0 edist0 defaultConfig bodyAB candAB (DB.mk [] 1)
    (by decide)

/-- Claim C3 counterexample: a window row at distance exactly equal to
maxProximityMeters (100).  In the trigger variant is_close is strict, so the
row does NOT count as within range: with five window rows all at distance
exactly 100 the trigger decides Insert, while the worker variant (inclusive
comparison) coalesces the very same configuration into row 5. -/
theorem proximity_boundary_strict_sql :
    isCloseTo edist100 defaultConfig candAB
      ⟨5, some 0, some 0, some 5, some "AB", [("batt", "50")]⟩ = some false ∧
    triggerDecision edist100 defaultConfig storeAB candAB = .insert ∧
    tsDecide wdist100 defaultConfig bodyAB
      (tsWindow storeAB LAST_LOCATIONS_COUNT) = .coalesceInto 5 := by
  decide

/-- Claim C3 amended: the proximity comparison is inclusive in the worker
variant only; the trigger variant is strict.  For a constant distance d the
worker's within-range test evaluates to d <= maxProximityMeters while the
trigger's is_close evaluates to d < maxProximityMeters, so a row at exactly
maxProximityMeters counts as within range for the worker and not for the
trigger. -/
theorem proximity_boundary_comparisons (d : ℚ) (cfg : Config) (b : Body)
    (c : Cand) (r : SqlRow) (a0 b0 x0 y0 : ℚ)
    (hca : c.lat = some a0) (hcb : c.lon = some b0)
    (hrx : r.lat = some x0) (hry : r.lon = some y0) :
    tsIsWithin (fun _ _ _ _ => .fin d) cfg b r =
      decide (d ≤ cfg.maxProximityMeters) ∧
    isCloseTo (fun _ _ _ _ => d) cfg c r =
      some (decide (d < cfg.maxProximityMeters)) := by
  constructor
  · rfl
  · simp [isCloseTo, hca, hcb, hrx, hry]

/-- Witness for proximity_boundary_comparisons at the boundary distance. -/
theorem proximity_boundary_comparisons_witness :
    tsIsWithin (fun _ _ _ _ => .fin 100) defaultConfig bodyAB
        ⟨1, some 0, some 0, some 1, some "AB", []⟩ =
      decide ((100:ℚ) ≤ defaultConfig.maxProximityMeters) ∧
    isCloseTo (fun _ _ _ _ => (100:ℚ)) defaultConfig candAB
        ⟨1, some 0, some 0, some 1, some "AB", []⟩ =
      some (decide ((100:ℚ) < defaultConfig.maxProximityMeters)) :=
  proximity_boundary_comparisons 100 defaultConfig bodyAB candAB
    ⟨1, some 0, some 0, some 1, some "AB", []⟩ 0 0 0 0 rfl rfl rfl rfl

/-- Branch lemma: an Insert decision makes the worker append a fresh row. -/
theorem tsStep_insert_eq {wdist : WorkerDist} {cfg : Config} {db : DB}
    {b : Body}
    (h : tsDecide wdist cfg b (tsWindow db.rows cfg.windowLimit) = .insert) :
    tsStep wdist cfg db b =
      ⟨db.rows ++ [rowOfBody db.nextId b], db.nextId + 1⟩ := by
  unfold tsStep
  rw [h]

/-- Branch lemma: a Coalesce decision makes the worker update the target row
in place. -/
theorem tsStep_coalesce_eq {wdist : WorkerDist} {cfg : Config} {db : DB}
    {b : Body} {i : Nat}
    (h : tsDecide wdist cfg b (tsWindow db.rows cfg.windowLimit) =
      .coalesceInto i) :
    tsStep wdist cfg db b =
      ⟨db.rows.map (fun r => if r.id = i then applyUpdate r b else r),
        db.nextId⟩ := by
  unfold tsStep
  rw [h]

/-- Claim C2 (evaluation at the failing input): the worker's window query has
no tracker-id filter, so a candidate for tracker AB is classified against a
window consisting entirely of tracker BC's rows and coalesces into BC's most
recent row (overwriting it, including its tid).  The trigger's window for
the same store and candidate is empty, because its query filters
loc.tid = NEW.tid, and the trigger inserts a sixth row instead. -/
theorem cross_tid_coalesce_eval :
    (∀ r ∈ tsWindow storeBC LAST_LOCATIONS_COUNT, r.tid = some "BC") ∧
    tsDecide wdist0 defaultConfig bodyAB
      (tsWindow storeBC LAST_LOCATIONS_COUNT) = .coalesceInto 5 ∧
    (tsStep wdist0 defaultConfig ⟨storeBC, 6⟩ bodyAB).rows.length = 5 ∧
    (∃ r ∈ (tsStep wdist0 defaultConfig ⟨storeBC, 6⟩ bodyAB).rows,
      r.id = 5 ∧ r.tid = some "AB") ∧
    sqlWindow storeBC candAB LAST_LOCATIONS_COUNT = [] ∧
    (locations_no_dups_insert_trigger edist0 defaultConfig
      ⟨storeBC, 6⟩ candAB).rows.length = 6 := by
  decide

/-- Claim C4 counterexample: on the worker path a Coalesce does not overwrite
fields the candidate leaves unset.  Row 5 stores batt = 50, the candidate
leaves batt unset; the worker's coalesce leaves batt = 50 on the surviving
row, while the trigger's coalesce of the same scenario resets the telemetry
to the candidate's (empty) values. -/
theorem ts_update_keeps_unset_field :
    bodyAB.rest = [] ∧ candAB.rest = [] ∧
    tsDecide wdist0 defaultConfig bodyAB
      (tsWindow storeAB LAST_LOCATIONS_COUNT) = .coalesceInto 5 ∧
    (∃ r ∈ (tsStep wdist0 defaultConfig ⟨storeAB, 6⟩ bodyAB).rows,
      r.id = 5 ∧ r.rest = [("batt", "50")]) ∧
    (∃ r ∈ (locations_no_dups_insert_trigger edist0 defaultConfig
        ⟨storeAB, 6⟩ candAB).rows,
      r.id = 5 ∧ r.rest = []) := by
  decide

/-- Claim C4 amended: on a Coalesce decision both paths keep the target id
and create no new row; the trigger path overwrites every non-id field with
the candidate's value (fields the candidate leaves unset become NULL), but
the worker path overwrites only the fields present in the candidate payload
and fields left unset retain their previous values. -/
theorem coalesce_replacement_semantics
    (edist : EarthDist) (wdist : WorkerDist) (cfg : Config) (db : DB)
    (c : Cand) (b : Body) (i : Nat)
    (hnd : db.rows.Pairwise (fun a b => a.id ≠ b.id))
    (hdec : triggerDecision edist cfg db.rows c = .coalesceInto i)
    (htdec : tsDecide wdist cfg b (tsWindow db.rows cfg.windowLimit) =
      .coalesceInto i) :
    ((locations_no_dups_insert_trigger edist cfg db c).rows.length =
        db.rows.length ∧
     (locations_no_dups_insert_trigger edist cfg db c).nextId = db.nextId ∧
     mkSqlRow i c ∈ (locations_no_dups_insert_trigger edist cfg db c).rows ∧
     (mkSqlRow i c).id = i ∧ (mkSqlRow i c).lat = c.lat ∧
     (mkSqlRow i c).lon = c.lon ∧ (mkSqlRow i c).tst = c.tst ∧
     (mkSqlRow i c).tid = c.tid ∧ (mkSqlRow i c).rest = c.rest ∧
     (∀ x ∈ db.rows, x.id ≠ i →
        x ∈ (locations_no_dups_insert_trigger edist cfg db c).rows)) ∧
    ((tsStep wdist cfg db b).rows.length = db.rows.length ∧
     (tsStep wdist cfg db b).nextId = db.nextId ∧
     (∀ x ∈ db.rows, x.id ≠ i → x ∈ (tsStep wdist cfg db b).rows) ∧
     (∀ x ∈ db.rows, x.id = i →
        applyUpdate x b ∈ (tsStep wdist cfg db b).rows ∧
        (applyUpdate x b).id = x.id ∧
        (b.lat = none → (applyUpdate x b).lat = x.lat) ∧
        (∀ v, b.lat = some v → (applyUpdate x b).lat = v) ∧
        (b.rest = [] → (applyUpdate x b).rest = x.rest))) := by
  obtain ⟨mr, mrest, hwEq, hmrId, hmrMem⟩ := triggerDecision_coalesce_head hdec
  constructor
  · rw [trigger_coalesce_eq hdec]
    refine ⟨?_, rfl, ?_, rfl, rfl, rfl, rfl, rfl, rfl, ?_⟩
    · simp only [List.length_append, List.length_singleton]
      rw [← hmrId]
      exact filter_ne_id_length hnd hmrMem
    · exact List.mem_append_right _ (List.mem_singleton_self _)
    · intro x hx hne
      exact List.mem_append_left _ (List.mem_filter.mpr ⟨hx, by simpa using hne⟩)
  · rw [tsStep_coalesce_eq htdec]
    refine ⟨List.length_map _ _, rfl, ?_, ?_⟩
    · intro x hx hne
      have hmem2 : (if x.id = i then applyUpdate x b else x) ∈
          List.map (fun r => if r.id = i then applyUpdate r b else r) db.rows :=
        List.mem_map_of_mem (fun r => if r.id = i then applyUpdate r b else r) hx
      rw [if_neg hne] at hmem2
      exact hmem2
    · intro x hx heq
      have hmem2 : (if x.id = i then applyUpdate x b else x) ∈
          List.map (fun r => if r.id = i then applyUpdate r b else r) db.rows :=
        List.mem_map_of_mem (fun r => if r.id = i then applyUpdate r b else r) hx
      rw [if_pos heq] at hmem2
      refine ⟨hmem2, rfl, ?_, ?_, ?_⟩
      · intro hb
        simp [applyUpdate, hb]
      · intro v hb
        simp [applyUpdate, hb]
      · intro hb
        simp [applyUpdate, hb, overrideRest]

/-- Witness for coalesce_replacement_semantics: the storeAB hangout, where
both variants coalesce into row 5. -/
theorem coalesce_replacement_semantics_witness :
    ((locations_no_dups_insert_trigger edist0 defaultConfig
        (DB.mk storeAB 6) candAB).rows.length = (DB.mk storeAB 6).rows.length ∧
     (locations_no_dups_insert_trigger edist0 defaultConfig
        (DB.mk storeAB 6) candAB).nextId = (DB.mk storeAB 6).nextId ∧
     mkSqlRow 5 candAB ∈ (locations_no_dups_insert_trigger edist0 defaultConfig
        (DB.mk storeAB 6) candAB).rows ∧
     (mkSqlRow 5 candAB).id = 5 ∧ (mkSqlRow 5 candAB).lat = candAB.lat ∧
     (mkSqlRow 5 candAB).lon = candAB.lon ∧
     (mkSqlRow 5 candAB).tst = candAB.tst ∧
     (mkSqlRow 5 candAB).tid = candAB.tid ∧
     (mkSqlRow 5 candAB).rest = candAB.rest ∧
     (∀ x ∈ (DB.mk storeAB 6).rows, x.id ≠ 5 →
        x ∈ (locations_no_dups_insert_trigger edist0 defaultConfig
          (DB.mk storeAB 6) candAB).rows)) ∧
    ((tsStep wdist0 defaultConfig (DB.mk storeAB 6) bodyAB).rows.length =
        (DB.mk storeAB 6).rows.length ∧
     (tsStep wdist0 defaultConfig (DB.mk storeAB 6) bodyAB).nextId =
        (DB.mk storeAB 6).nextId ∧
     (∀ x ∈ (DB.mk storeAB 6).rows, x.id ≠ 5 →
        x ∈ (tsStep wdist0 defaultConfig (DB.mk storeAB 6) bodyAB).rows) ∧
     (∀ x ∈ (DB.mk storeAB 6).rows, x.id = 5 →
        applyUpdate x bodyAB ∈
          (tsStep wdist0 defaultConfig (DB.mk storeAB 6) bodyAB).rows ∧
        (applyUpdate x bodyAB).id = x.id ∧
        (bodyAB.lat = none → (applyUpdate x bodyAB).lat = x.lat) ∧
        (∀ v, bodyAB.lat = some v → (applyUpdate x bodyAB).lat = v) ∧
        (bodyAB.rest = [] → (applyUpdate x bodyAB).rest = x.rest))) :=
  coalesce_replacement_semantics edist0 wdist0 defaultConfig
    (DB.mk storeAB 6) candAB bodyAB 5 (by decide) (by decide) (by decide)

/-- Claim C6 counterexample: calculateDistance does NOT return a large
sentinel for every invalid input.  The coordinate 100 is outside the valid
latitude range (|lat| <= 90), yet calculateDistance on two such identical
points passes the isNaN guard and returns exactly 0, which is not greater
than the configured bound 100 -- so an out-of-range row is counted as within
range rather than never-in-range.  Moreover a null coordinate does not reach
the guard either: the call-site coercion turns null into 0, not NaN. -/
theorem out_of_range_distance_zero :
    ((90:ℝ) < 100) ∧
    calculateDistance (RNum.fin 100) (RNum.fin 0) (RNum.fin 100) (RNum.fin 0) =
      RNum.fin 0 ∧
    ¬ rnumGt (calculateDistance (RNum.fin 100) (RNum.fin 0) (RNum.fin 100)
        (RNum.fin 0)) 100 ∧
    toNumber (some none) = RNum.fin 0 := by
  have h : calculateDistance (RNum.fin 100) (RNum.fin 0) (RNum.fin 100)
      (RNum.fin 0) = RNum.fin 0 := by
    show RNum.fin (haversineFormula 100 0 100 0) = RNum.fin 0
    rw [haversineFormula_equal_points]
  refine ⟨by norm_num, h, ?_, rfl⟩
  rw [h]
  norm_num [rnumGt]

/-- Claim C6 amended: when any coordinate is NaN, calculateDistance does not
raise (it is total) and returns Infinity, which exceeds every finite
proximity bound, so such comparisons are never counted as within range;
coordinates that are null coerce to 0 at the call site and finite
out-of-range coordinates flow through the Haversine formula unchecked. -/
theorem nan_coordinates_sentinel (lat1 lon1 lat2 lon2 : RNum) (m : ℝ)
    (h : lat1 = RNum.nan ∨ lon1 = RNum.nan ∨ lat2 = RNum.nan ∨
      lon2 = RNum.nan) :
    calculateDistance lat1 lon1 lat2 lon2 = RNum.inf ∧
      rnumGt (calculateDistance lat1 lon1 lat2 lon2) m := by
  cases lat1 <;> cases lon1 <;> cases lat2 <;> cases lon2 <;>
    simp_all [calculateDistance, rnumGt]

/-- Witness for nan_coordinates_sentinel: a NaN first coordinate against the
default proximity bound. -/
theorem nan_coordinates_sentinel_witness :
    calculateDistance RNum.nan (RNum.fin 0) (RNum.fin 0) (RNum.fin 0) =
      RNum.inf ∧
    rnumGt (calculateDistance RNum.nan (RNum.fin 0) (RNum.fin 0) (RNum.fin 0))
      100 :=
  nan_coordinates_sentinel RNum.nan (RNum.fin 0) (RNum.fin 0) (RNum.fin 0)
    100 (Or.inl rfl)

/-- Claim C7 (evaluation at the failing input): the worker composes its read
and its write as separate store round-trips, so two racing calls for the
same tracker can both classify against the same stale window.  With four
prior rows in range (one short of the minimum), both raced calls decide
Insert and produce 6 rows, while in either serial order the second call
coalesces and 5 rows remain: the raced outcome matches no serial
execution. -/
theorem raced_ingest_diverges_from_serial :
    tsDecide wdist0 defaultConfig bodyT5
      (tsWindow store4 LAST_LOCATIONS_COUNT) = .insert ∧
    tsDecide wdist0 defaultConfig bodyAB
      (tsWindow store4 LAST_LOCATIONS_COUNT) = .insert ∧
    tsDecide wdist0 defaultConfig bodyAB
      (tsWindow (tsStep wdist0 defaultConfig ⟨store4, 5⟩ bodyT5).rows
        LAST_LOCATIONS_COUNT) = .coalesceInto 5 ∧
    (racedPair wdist0 defaultConfig ⟨store4, 5⟩ bodyT5 bodyAB).rows.length = 6 ∧
    (tsStep wdist0 defaultConfig
      (tsStep wdist0 defaultConfig ⟨store4, 5⟩ bodyT5) bodyAB).rows.length = 5 ∧
    (tsStep wdist0 defaultConfig
      (tsStep wdist0 defaultConfig ⟨store4, 5⟩ bodyAB) bodyT5).rows.length = 5 := by
  decide

/-- Claim C8 counterexample: a run whose decision is Coalesce and whose
update round-trip fails returns HTTP 500 and does not attempt any insert:
the store is exactly unchanged and the candidate (fix time 6) is not
persisted anywhere -- the failed coalesce also fails to insert.  (The loss
is reported, not silent: the status is 500, see the amended theorem.) -/
theorem failed_coalesce_no_insert :
    tsDecide wdist0 defaultConfig bodyAB
      (tsWindow storeAB LAST_LOCATIONS_COUNT) = .coalesceInto 5 ∧
    tsRun wdist0 defaultConfig ⟨storeAB, 6⟩ bodyAB
      ⟨OpResult.ok, OpResult.err, OpResult.ok⟩ = (500, ⟨storeAB, 6⟩) ∧
    (∀ r ∈ storeAB, r.tst ≠ some 6) := by
  decide

/-- Claim C8 amended: no loss is silent, but there is no fallback insert
either: every worker run returns status 200 or 500; a 500 run leaves the
store exactly unchanged (the candidate is dropped and the caller is expected
to retry), and a 200 run has performed the full read-decide-write step. -/
theorem coalesce_failure_surfaces (wdist : WorkerDist) (cfg : Config)
    (db : DB) (b : Body) (oc : OpResults) :
    ((tsRun wdist cfg db b oc).1 = 200 ∨ (tsRun wdist cfg db b oc).1 = 500) ∧
    ((tsRun wdist cfg db b oc).1 = 500 → (tsRun wdist cfg db b oc).2 = db) ∧
    ((tsRun wdist cfg db b oc).1 = 200 →
      (tsRun wdist cfg db b oc).2 = tsStep wdist cfg db b) := by
  unfold tsRun tsStep
  by_cases hs : oc.selectRes = .err
  · simp [hs]
  · rw [if_neg hs]
    cases hdec : tsDecide wdist cfg b (tsWindow db.rows cfg.windowLimit) with
    | coalesceInto i =>
      by_cases hu : oc.updateRes = .err
      · simp [hu]
      · simp [hu]
    | insert =>
      by_cases hi : oc.insertRes = .err
      · simp [hi]
      · simp [hi]

/-- Claim C9 counterexample (spec-modelled batch engine): the surviving sets
of the batch pass and the live replay differ on an 11-fix drifting history.
Fix 6 coalesces in both engines, but it drags the LIVE anchor row to
coordinate 80 while the batch output keeps the run's first member at 0; at
fix 11 (coordinate 160) the live window holds the drifted coordinates and
reaches the minimum within-range count, so live coalesces fix 11 away,
whereas the batch window holds the original coordinates, stays below the
minimum, and keeps fix 11 as a surviving row. -/
theorem batch_live_divergence :
    replayKeeps dist1D defaultConfig ⟨[], 1⟩
        ((rowsOfSeq 1 driftSeq).map candOf) =
      [true, true, true, true, true, false, true, true, true, true, false] ∧
    batchKeeps dist1D defaultConfig [] (rowsOfSeq 1 driftSeq) =
      [true, true, true, true, true, false, true, true, true, true, true] ∧
    replayKeeps dist1D defaultConfig ⟨[], 1⟩
        ((rowsOfSeq 1 driftSeq).map candOf) ≠
      batchKeeps dist1D defaultConfig [] (rowsOfSeq 1 driftSeq) := by
  decide

/-- Claim C9 amended (spec-modelled batch engine): the batch pass applies the
identical classification predicate, and its surviving set matches the live
replay's on every history whose fixes all carry one constant coordinate pair
(then coalescing never moves a stored coordinate); the two can diverge once
live coalescing rewrites an anchor row's coordinates, which the batch pass
never does. -/
theorem batch_live_equiv_constant_coords (dist : EarthDist) (cfg : Config)
    (p q : ℚ) (t : String) (input : List SqlRow)
    (hin : ∀ r ∈ input, GoodRow p q t r) :
    replayKeeps dist cfg ⟨[], 1⟩ (input.map candOf) =
      batchKeeps dist cfg [] input :=
  replay_batch_aux dist cfg p q t input ⟨[], 1⟩ [] hin
    (fun r hr => absurd hr (List.not_mem_nil r)) List.Pairwise.nil
    (fun r hr => absurd hr (List.not_mem_nil r))
    (fun r hr => absurd hr (List.not_mem_nil r)) rfl

/-- Witness for batch_live_equiv_constant_coords: a seven-fix constant
history for tracker AB. -/
theorem batch_live_equiv_constant_coords_witness :
    replayKeeps dist1D defaultConfig ⟨[], 1⟩ (constSeq7.map candOf) =
      batchKeeps dist1D defaultConfig [] constSeq7 :=
  batch_live_equiv_constant_coords dist1D defaultConfig 0 0 "AB" constSeq7
    (by decide)

/-- Claim C10: under the store invariant (distinct ids below the serial
counter), every completed ingestion either appends exactly one new row whose
id is fresh, or replaces exactly the one row whose id the classifier chose
(the most recent window row) leaving every other row untouched; the row
count grows by one or stays the same, and never decreases.  Both the
trigger path and the worker path satisfy this. -/
theorem ingest_store_effect (edist : EarthDist) (wdist : WorkerDist)
    (cfg : Config) (db : DB) (c : Cand) (b : Body) (hinv : DbInv db) :
    ((∃ r, (locations_no_dups_insert_trigger edist cfg db c).rows =
        db.rows ++ [r] ∧ r.id ∉ db.rows.map (fun x => x.id) ∧
        (locations_no_dups_insert_trigger edist cfg db c).rows.length =
          db.rows.length + 1) ∨
     (∃ mr ∈ db.rows,
        triggerDecision edist cfg db.rows c = .coalesceInto mr.id ∧
        (locations_no_dups_insert_trigger edist cfg db c).rows =
          db.rows.filter (fun x => x.id ≠ mr.id) ++ [mkSqlRow mr.id c] ∧
        (locations_no_dups_insert_trigger edist cfg db c).rows.length =
          db.rows.length)) ∧
    ((∃ r, (tsStep wdist cfg db b).rows = db.rows ++ [r] ∧
        r.id ∉ db.rows.map (fun x => x.id) ∧
        (tsStep wdist cfg db b).rows.length = db.rows.length + 1) ∨
     (∃ mr ∈ db.rows,
        tsDecide wdist cfg b (tsWindow db.rows cfg.windowLimit) =
          .coalesceInto mr.id ∧
        (tsStep wdist cfg db b).rows =
          db.rows.map (fun x => if x.id = mr.id then applyUpdate x b else x) ∧
        (tsStep wdist cfg db b).rows.length = db.rows.length)) := by
  obtain ⟨hnd, hlt⟩ := hinv
  constructor
  · cases hdec : triggerDecision edist cfg db.rows c with
    | insert =>
      left
      refine ⟨mkSqlRow db.nextId c, ?_, ?_, ?_⟩
      · rw [trigger_insert_eq hdec]
      · intro hmem
        obtain ⟨x, hx, hxid⟩ := List.mem_map.mp hmem
        exact absurd hxid (Nat.ne_of_lt (hlt x hx))
      · rw [trigger_insert_eq hdec]
        simp
    | coalesceInto i =>
      right
      obtain ⟨mr, mrest, hwEq, hmrId, hmrMem⟩ :=
        triggerDecision_coalesce_head hdec
      refine ⟨mr, hmrMem, ?_, ?_, ?_⟩
      · rw [hmrId]
      · rw [trigger_coalesce_eq hdec, hmrId]
      · rw [trigger_coalesce_eq hdec]
        simp only [List.length_append, List.length_singleton]
        rw [← hmrId]
        exact filter_ne_id_length hnd hmrMem
  · cases hdec : tsDecide wdist cfg b (tsWindow db.rows cfg.windowLimit) with
    | insert =>
      left
      refine ⟨rowOfBody db.nextId b, ?_, ?_, ?_⟩
      · rw [tsStep_insert_eq hdec]
      · intro hmem
        obtain ⟨x, hx, hxid⟩ := List.mem_map.mp hmem
        exact absurd hxid (Nat.ne_of_lt (hlt x hx))
      · rw [tsStep_insert_eq hdec]
        simp
    | coalesceInto i =>
      right
      obtain ⟨mr, mrest, hwEq, hmrId, hmrMem⟩ := tsDecide_coalesce_head hdec
      refine ⟨mr, hmrMem, ?_, ?_, ?_⟩
      · rw [hmrId]
      · rw [tsStep_coalesce_eq hdec, hmrId]
      · rw [tsStep_coalesce_eq hdec]
        simp

/-- Witness for ingest_store_effect at the empty store (Insert branch on
both paths). -/
theorem ingest_store_effect_witness :
    ((∃ r, (locations_no_dups_insert_trigger edist0 defaultConfig
        (DB.mk [] 1) candAB).rows = (DB.mk [] 1).rows ++ [r] ∧
        r.id ∉ (DB.mk [] 1).rows.map (fun x => x.id) ∧
        (locations_no_dups_insert_trigger edist0 defaultConfig
          (DB.mk [] 1) candAB).rows.length = (DB.mk [] 1).rows.length + 1) ∨
     (∃ mr ∈ (DB.mk [] 1).rows,
        triggerDecision edist0 defaultConfig (DB.mk [] 1).rows candAB =
          .coalesceInto mr.id ∧
        (locations_no_dups_insert_trigger edist0 defaultConfig
          (DB.mk [] 1) candAB).rows =
          (DB.mk [] 1).rows.filter (fun x => x.id ≠ mr.id) ++
            [mkSqlRow mr.id candAB] ∧
        (locations_no_dups_insert_trigger edist0 defaultConfig
          (DB.mk [] 1) candAB).rows.length = (DB.mk [] 1).rows.length)) ∧
    ((∃ r, (tsStep wdist0 defaultConfig (DB.mk [] 1) bodyAB).rows =
        (DB.mk [] 1).rows ++ [r] ∧
        r.id ∉ (DB.mk [] 1).rows.map (fun x => x.id) ∧
        (tsStep wdist0 defaultConfig (DB.mk [] 1) bodyAB).rows.length =
          (DB.mk [] 1).rows.length + 1) ∨
     (∃ mr ∈ (DB.mk [] 1).rows,
        tsDecide wdist0 defaultConfig bodyAB
          (tsWindow (DB.mk [] 1).rows defaultConfig.windowLimit) =
          .coalesceInto mr.id ∧
        (tsStep wdist0 defaultConfig (DB.mk [] 1) bodyAB).rows =
          (DB.mk [] 1).rows.map
            (fun x => if x.id = mr.id then applyUpdate x bodyAB else x) ∧
        (tsStep wdist0 defaultConfig (DB.mk [] 1) bodyAB).rows.length =
          (DB.mk [] 1).rows.length)) :=
  ingest_store_effect edist0 wdist0 defaultConfig (DB.mk [] 1) candAB bodyAB
    ⟨List.Pairwise.nil, fun r hr => absurd hr (List.not_mem_nil r)⟩
